import Mathlib

/-!
# Bootstrap script `src/frontend/index.js`

```
1 | import init, { wasm_main } from "./pkg/frontend.js";
3 | async function run() {
4 |     await init();
5 |     wasm_main();
6 | }
8 | run();
```

The two imported functions live in the generated package `./pkg/frontend.js`,
which is not part of the sources; they are a parameter (`Module`) of the
embedding.  The asynchronous function `run` is embedded as a coroutine with its
single suspension point (`await` on line 4): `run_enter` is the part executed
synchronously by the call, `run_resume` the part executed when the awaited
promise settles.  The host event loop is a step function on an explicit
`World`; one step is one turn of the host scheduler.  The host reports every
promise that rejects without a handler: the promise of `run()`, to which line 8
attaches none, and the promise `wasm_main()` may return, which line 5 drops.
-/

namespace Buzzer

/-- JavaScript values, as far as the script can tell them apart. Any value can
be thrown, so errors are values too. -/
inductive Value where
  | undefined
  | num (n : Int)
  | str (s : String)
  | ref (id : Nat)
  deriving DecidableEq, Repr

/-- How a promise settles. -/
inductive Settlement where
  | fulfilled (v : Value)
  | rejected (e : Value)
  deriving DecidableEq, Repr

/-- Future of a promise handed out by the module: it settles once `delay`
further scheduler turns have passed, or it never settles. -/
inductive Fate where
  | settlesAfter (delay : Nat) (s : Settlement)
  | never
  deriving DecidableEq, Repr

/-- What evaluating the call expression `init(...)` does. -/
inductive InitOutcome where
  | throws (e : Value)
  | returnsValue (v : Value)
  | returnsPromise (f : Fate)
  | diverges
  deriving DecidableEq, Repr

/-- What evaluating the call expression `wasm_main(...)` does: it returns a
value that is not a promise, returns a promise with the given future, throws,
or never returns. -/
inductive CallOutcome where
  | returns (v : Value)
  | returnsPromise (f : Fate)
  | throws (e : Value)
  | diverges
  deriving DecidableEq, Repr

/-- The imported package `./pkg/frontend.js` (line 1): its default export and
its named export `wasm_main`, each as a function of the argument list. -/
structure Module where
  init : List Value → InitOutcome
  wasm_main : List Value → CallOutcome

/-- Observable events, in program order. -/
inductive Event where
  | runCalled (args : List Value)
  | initCalled (args : List Value)
  | initResolved (v : Value)
  | initRejected (e : Value)
  | wasmMainCalled (args : List Value)
  deriving DecidableEq, Repr

/-- State of a promise. -/
inductive PromiseState where
  | pending
  | fulfilled (v : Value)
  | rejected (e : Value)
  deriving DecidableEq, Repr

/-- State of the page.
* `trace`: events so far;
* `runPromise`: the promise returned by the call `run()` on line 8 (`none`
  while no such call has returned);
* `awaiting`: the continuation of `run` suspended at line 4, with the future of
  the promise it waits for;
* `hung`: control is inside a call that never returns;
* `dropped`: the promise `wasm_main()` returned, if it returned one: line 5
  drops it, nothing holds a handler for it, and the host still tracks it;
* `aboutToNotify`: promises rejected without a handler during the current turn;
* `unhandled`: what the host has reported on its unhandled-rejection channel. -/
structure World where
  trace : List Event
  runPromise : Option PromiseState
  awaiting : Option Fate
  hung : Bool
  dropped : Option Fate
  aboutToNotify : List Value
  unhandled : List Value
  deriving DecidableEq, Repr

/-- The page before the script is evaluated. -/
def World.initial : World :=
  { trace := [], runPromise := none, awaiting := none, hung := false,
    dropped := none, aboutToNotify := [], unhandled := [] }

/-- The operand of `await`: a promise is awaited as it is, any other value `v`
as a promise already fulfilled with `v`. -/
def awaitOperand : InitOutcome → Option Fate
  | .returnsPromise f => some f
  | .returnsValue v => some (.settlesAfter 0 (.fulfilled v))
  | .throws _ => none
  | .diverges => none

/-- The promise of `run` is rejected with `e`; no handler is attached to it, so
the host is to be notified. -/
def rejectRun (e : Value) (w : World) : World :=
  { w with runPromise := some (.rejected e), aboutToNotify := w.aboutToNotify ++ [e] }

/-- Lines 3-4, the synchronous part of a call `run(args)`: `run` has no
parameters, so `args` is dropped; `init()` is called with no arguments and its
result is awaited. -/
def run_enter (m : Module) (args : List Value) (w : World) : World :=
  let w1 := { w with trace := w.trace ++ [.runCalled args, .initCalled []] }
  match m.init [] with
  | .throws e => rejectRun e w1
  | .diverges => { w1 with hung := true }
  | r@(.returnsValue _) => { w1 with runPromise := some .pending, awaiting := awaitOperand r }
  | r@(.returnsPromise _) => { w1 with runPromise := some .pending, awaiting := awaitOperand r }

/-- Lines 4-6, the continuation of `run` once the awaited promise has settled
with `s`: a rejection is rethrown by `await`; a fulfilment value is dropped
(line 4 is an expression statement), then `wasm_main()` is called with no
arguments, its value is dropped (line 5 is an expression statement too, with no
`await`), and `run` returns `undefined`. A dropped value that is a promise
stays with the host, which reports it if it rejects. -/
def run_resume (m : Module) (s : Settlement) (w : World) : World :=
  match s with
  | .rejected e =>
    rejectRun e { w with trace := w.trace ++ [.initRejected e], awaiting := none }
  | .fulfilled v =>
    let w1 := { w with trace := w.trace ++ [.initResolved v, .wasmMainCalled []],
                       awaiting := none }
    match m.wasm_main [] with
    | .returns _ => { w1 with runPromise := some (.fulfilled .undefined) }
    | .returnsPromise f =>
      { w1 with runPromise := some (.fulfilled .undefined), dropped := some f }
    | .throws e => rejectRun e w1
    | .diverges => { w1 with hung := true }

/-- End of a turn: the host reports the promises rejected without a handler. -/
def checkpoint (w : World) : World :=
  { w with unhandled := w.unhandled ++ w.aboutToNotify, aboutToNotify := [] }

/-- Line 8, evaluation of the script: `run();` with no arguments; the returned
promise is dropped, no handler is attached. -/
def load (m : Module) : World :=
  let w := run_enter m [] World.initial
  if w.hung then w else checkpoint w

/-- One turn for the promise dropped on line 5: when it settles it is
forgotten, and a rejection, having no handler, is queued for the host. -/
def stepDropped (w : World) : World :=
  match w.dropped with
  | none => w
  | some .never => w
  | some (.settlesAfter 0 (.fulfilled _)) => { w with dropped := none }
  | some (.settlesAfter 0 (.rejected e)) =>
    { w with dropped := none, aboutToNotify := w.aboutToNotify ++ [e] }
  | some (.settlesAfter (k + 1) s) => { w with dropped := some (.settlesAfter k s) }

/-- One turn of the host scheduler: the promises in flight advance, `run` is
resumed if the promise it awaits has settled, and the host reports. -/
def step (m : Module) (w : World) : World :=
  if w.hung then w else
  let w0 := stepDropped w
  match w0.awaiting with
  | none => checkpoint w0
  | some .never => checkpoint w0
  | some (.settlesAfter 0 s) =>
    let w1 := run_resume m s w0
    if w1.hung then w1 else checkpoint w1
  | some (.settlesAfter (d + 1) s) =>
    checkpoint { w0 with awaiting := some (.settlesAfter d s) }

/-- The page `t` scheduler turns after the script was evaluated. -/
def worldAt (m : Module) : Nat → World
  | 0 => load m
  | t + 1 => step m (worldAt m t)

/-- Calls made on the imported module. -/
def Event.isModuleCall : Event → Bool
  | .initCalled _ => true
  | .wasmMainCalled _ => true
  | _ => false

/-- Events at the boundary with the imported module: calls and settlements. -/
def Event.isModuleEvent : Event → Bool
  | .runCalled _ => false
  | _ => true

/-- Calls of `run`. -/
def Event.isRunCall : Event → Bool
  | .runCalled _ => true
  | _ => false

/-- Calls of `init`. -/
def Event.isInitCall : Event → Bool
  | .initCalled _ => true
  | _ => false

/-- Calls of `wasm_main`. -/
def Event.isWasmMainCall : Event → Bool
  | .wasmMainCalled _ => true
  | _ => false

/-- The call returned, with a value or with a promise. -/
def CallOutcome.returnsNormally : CallOutcome → Bool
  | .returns _ => true
  | .returnsPromise _ => true
  | .throws _ => false
  | .diverges => false

/-- The call returned a promise that rejects. -/
def CallOutcome.rejectsLater : CallOutcome → Bool
  | .returnsPromise (.settlesAfter _ (.rejected _)) => true
  | .returnsPromise (.settlesAfter _ (.fulfilled _)) => false
  | .returnsPromise .never => false
  | .returns _ => false
  | .throws _ => false
  | .diverges => false

/-- Settlements of the promise of `init` seen by `run`. -/
def Event.isInitSettled : Event → Bool
  | .initResolved _ => true
  | .initRejected _ => true
  | _ => false

/-- Trace of events on the imported module. -/
def World.moduleTrace (w : World) : List Event := w.trace.filter Event.isModuleEvent

/-- Sequence of calls made on the imported module. -/
def World.moduleCalls (w : World) : List Event := w.trace.filter Event.isModuleCall

/-- Calls of `run` so far. -/
def World.runCalls (w : World) : List Event := w.trace.filter Event.isRunCall

/-- Calls of `init` so far. -/
def World.initCalls (w : World) : List Event := w.trace.filter Event.isInitCall

/-- Calls of `wasm_main` so far. -/
def World.wasmMainCalls (w : World) : List Event := w.trace.filter Event.isWasmMainCall

/-- The page while `run` is suspended at line 4 on a promise with future `f`. -/
def suspended (f : Fate) : World :=
  { trace := [.runCalled [], .initCalled []], runPromise := some .pending,
    awaiting := some f, hung := false, dropped := none, aboutToNotify := [],
    unhandled := [] }

/-- The page after `run` was resumed with settlement `s`. -/
def resumed (m : Module) (s : Settlement) : World :=
  let w1 := run_resume m s (suspended (.settlesAfter 0 s))
  if w1.hung then w1 else checkpoint w1

/-- The page once `init()` has rejected with `e`. -/
def rejectedWorld (e : Value) : World :=
  { trace := [.runCalled [], .initCalled [], .initRejected e],
    runPromise := some (.rejected e), awaiting := none, hung := false,
    dropped := none, aboutToNotify := [], unhandled := [e] }

/-- The trace once `init()` has resolved with `h` and `run` was resumed. -/
def fullTrace (h : Value) : List Event :=
  [.runCalled [], .initCalled [], .initResolved h, .wasmMainCalled []]

/-- What is left of a dropped promise with future `f`, `k` turns after
`wasm_main()` returned it. -/
def droppedAt : Fate → Nat → Option Fate
  | .never, _ => some .never
  | .settlesAfter j s, k => if k ≤ j then some (.settlesAfter (j - k) s) else none

/-- What the host has reported about a dropped promise with future `f`, `k`
turns after `wasm_main()` returned it. -/
def reportedAt : Fate → Nat → List Value
  | .never, _ => []
  | .settlesAfter _ (.fulfilled _), _ => []
  | .settlesAfter j (.rejected e), k => if j < k then [e] else []

/-- The page `k` turns after `run` was resumed with the fulfilment value `h`,
by the outcome `o` of `wasm_main()`. -/
def afterWorld (o : CallOutcome) (h : Value) (k : Nat) : World :=
  match o with
  | .returns _ =>
    { trace := fullTrace h, runPromise := some (.fulfilled .undefined), awaiting := none,
      hung := false, dropped := none, aboutToNotify := [], unhandled := [] }
  | .returnsPromise f =>
    { trace := fullTrace h, runPromise := some (.fulfilled .undefined), awaiting := none,
      hung := false, dropped := droppedAt f k, aboutToNotify := [],
      unhandled := reportedAt f k }
  | .throws e =>
    { trace := fullTrace h, runPromise := some (.rejected e), awaiting := none,
      hung := false, dropped := none, aboutToNotify := [], unhandled := [e] }
  | .diverges =>
    { trace := fullTrace h, runPromise := some .pending, awaiting := none,
      hung := true, dropped := none, aboutToNotify := [], unhandled := [] }

/-- A module whose `init` fulfils after two turns and whose entry point returns. -/
def okModule : Module :=
  { init := fun _ => .returnsPromise (.settlesAfter 2 (.fulfilled (.ref 1))),
    wasm_main := fun _ => .returns (.num 7) }

/-- A module whose `init` rejects after one turn (artifact not found). -/
def missingModule : Module :=
  { init := fun _ => .returnsPromise (.settlesAfter 1 (.rejected (.str "404"))),
    wasm_main := fun _ => .returns .undefined }

/-- A module whose `init` fulfils at once and whose entry point throws. -/
def throwingModule : Module :=
  { init := fun _ => .returnsPromise (.settlesAfter 0 (.fulfilled (.ref 1))),
    wasm_main := fun _ => .throws (.str "boom") }

/-- A module whose `init` fulfils at once and whose entry point returns a
promise that rejects one turn later. -/
def rejectingEntryModule : Module :=
  { init := fun _ => .returnsPromise (.settlesAfter 0 (.fulfilled (.ref 1))),
    wasm_main := fun _ => .returnsPromise (.settlesAfter 1 (.rejected (.str "late"))) }

/-- The module `okModule` with an entry point that returns a promise. -/
def asyncEntryModule : Module :=
  { init := okModule.init,
    wasm_main := fun _ => .returnsPromise (.settlesAfter 0 (.fulfilled (.num 7))) }

/-- The module `okModule` with another value returned by its entry point. -/
def okModuleOther : Module :=
  { init := okModule.init, wasm_main := fun _ => .returns (.str "other") }

/-- The module `okModule` with another value for its `init()` to resolve to. -/
def okModuleOtherHandle : Module :=
  { init := fun _ => .returnsPromise (.settlesAfter 2 (.fulfilled (.str "handle"))),
    wasm_main := okModule.wasm_main }

/-- A module whose `init` never settles. -/
def stalledModule : Module :=
  { init := fun _ => .returnsPromise .never,
    wasm_main := fun _ => .returns .undefined }

/-! ## Sample runs -/

example : (worldAt okModule 2).moduleTrace = [.initCalled []] := by decide
example : (worldAt okModule 3).moduleTrace
    = [.initCalled [], .initResolved (.ref 1), .wasmMainCalled []] := by decide
example : (worldAt throwingModule 1).unhandled = [.str "boom"] := by decide
example : (worldAt missingModule 5).unhandled = [.str "404"] := by decide
example : (worldAt stalledModule 9).runPromise = some .pending := by decide
example : (worldAt rejectingEntryModule 1).runPromise = some (.fulfilled .undefined) := by
  decide
example : (worldAt rejectingEntryModule 2).unhandled = [] := by decide
example : (worldAt rejectingEntryModule 3).unhandled = [.str "late"] := by decide
example : (worldAt asyncEntryModule 9).unhandled = [] := by decide

/-! ## Closed forms of the run -/

theorem load_of_awaitOperand (m : Module) (f : Fate)
    (h : awaitOperand (m.init []) = some f) : load m = suspended f := by
  unfold load run_enter
  cases hi : m.init [] with
  | throws e => rw [hi] at h; simp [awaitOperand] at h
  | diverges => rw [hi] at h; simp [awaitOperand] at h
  | returnsValue v =>
    rw [hi] at h
    simp only [awaitOperand, Option.some.injEq] at h
    subst h
    simp [awaitOperand, checkpoint, suspended, World.initial]
  | returnsPromise g =>
    rw [hi] at h
    simp only [awaitOperand, Option.some.injEq] at h
    subst h
    simp [awaitOperand, checkpoint, suspended, World.initial]

theorem step_suspended_succ (m : Module) (d : Nat) (s : Settlement) :
    step m (suspended (.settlesAfter (d + 1) s)) = suspended (.settlesAfter d s) := by
  simp [step, stepDropped, checkpoint, suspended]

theorem step_suspended_zero (m : Module) (s : Settlement) :
    step m (suspended (.settlesAfter 0 s)) = resumed m s := by
  simp [step, stepDropped, suspended, resumed]

theorem step_suspended_never (m : Module) :
    step m (suspended .never) = suspended .never := by
  simp [step, stepDropped, checkpoint, suspended]

theorem resumed_rejected (m : Module) (e : Value) :
    resumed m (.rejected e) = rejectedWorld e := by
  simp [resumed, run_resume, rejectRun, checkpoint, suspended, rejectedWorld]

theorem step_rejectedWorld (m : Module) (e : Value) :
    step m (rejectedWorld e) = rejectedWorld e := by
  simp [step, stepDropped, checkpoint, rejectedWorld]

theorem resumed_fulfilled (m : Module) (h : Value) :
    resumed m (.fulfilled h) = afterWorld (m.wasm_main []) h 0 := by
  cases hw : m.wasm_main [] with
  | returns v => simp [resumed, run_resume, checkpoint, suspended, afterWorld, fullTrace, hw]
  | throws e =>
    simp [resumed, run_resume, rejectRun, checkpoint, suspended, afterWorld, fullTrace, hw]
  | diverges => simp [resumed, run_resume, suspended, afterWorld, fullTrace, hw]
  | returnsPromise f =>
    cases f with
    | never =>
      simp [resumed, run_resume, checkpoint, suspended, afterWorld, fullTrace, hw,
        droppedAt, reportedAt]
    | settlesAfter j s =>
      cases s <;>
        simp [resumed, run_resume, checkpoint, suspended, afterWorld, fullTrace, hw,
          droppedAt, reportedAt]

theorem step_afterWorld (m : Module) (o : CallOutcome) (h : Value) (k : Nat) :
    step m (afterWorld o h k) = afterWorld o h (k + 1) := by
  cases o with
  | returns v => simp [step, stepDropped, checkpoint, afterWorld]
  | throws e => simp [step, stepDropped, checkpoint, afterWorld]
  | diverges => simp [step, afterWorld]
  | returnsPromise f =>
    cases f with
    | never => simp [step, stepDropped, checkpoint, afterWorld, droppedAt, reportedAt]
    | settlesAfter j s =>
      rcases Nat.lt_trichotomy k j with hlt | heq | hgt
      · have h1 : k ≤ j := Nat.le_of_lt hlt
        have h2 : k + 1 ≤ j := hlt
        have h3 : j - k = (j - (k + 1)) + 1 := by omega
        have h4 : ¬ j < k := by omega
        have h5 : ¬ j < k + 1 := by omega
        cases s <;>
          simp [step, stepDropped, checkpoint, afterWorld, droppedAt, reportedAt,
            h1, h2, h3, h4, h5]
      · subst heq
        cases s <;>
          simp [step, stepDropped, checkpoint, afterWorld, droppedAt, reportedAt]
      · have h1 : ¬ k ≤ j := by omega
        have h2 : ¬ k + 1 ≤ j := by omega
        have h4 : j < k := hgt
        have h5 : j < k + 1 := by omega
        cases s <;>
          simp [step, stepDropped, checkpoint, afterWorld, droppedAt, reportedAt,
            h1, h2, h4, h5]

theorem worldAt_before (m : Module) (d : Nat) (s : Settlement)
    (h : awaitOperand (m.init []) = some (.settlesAfter d s)) :
    ∀ t, t ≤ d → worldAt m t = suspended (.settlesAfter (d - t) s) := by
  intro t
  induction t with
  | zero => intro _; simpa [worldAt] using load_of_awaitOperand m _ h
  | succ t ih =>
    intro ht
    have hlt : t < d := ht
    rw [worldAt, ih (Nat.le_of_lt hlt)]
    have hd : d - t = (d - (t + 1)) + 1 := by omega
    rw [hd, step_suspended_succ]

theorem worldAt_resume (m : Module) (d : Nat) (s : Settlement)
    (h : awaitOperand (m.init []) = some (.settlesAfter d s)) :
    worldAt m (d + 1) = resumed m s := by
  rw [worldAt, worldAt_before m d s h d (Nat.le_refl d), Nat.sub_self, step_suspended_zero]

/-- After a rejection of `init()` the page no longer changes. -/
theorem worldAt_after_rejected (m : Module) (d : Nat) (e : Value)
    (h : awaitOperand (m.init []) = some (.settlesAfter d (.rejected e))) :
    ∀ t, d < t → worldAt m t = rejectedWorld e := by
  intro t
  induction t with
  | zero => intro ht; omega
  | succ t ih =>
    intro ht
    by_cases hlt : d < t
    · rw [worldAt, ih hlt, step_rejectedWorld]
    · have htd : t = d := by omega
      subst htd
      rw [worldAt_resume m t _ h, resumed_rejected]

/-- After a fulfilment of `init()` the page is given by the outcome of
`wasm_main()` and the number of turns since. -/
theorem worldAt_after_fulfilled (m : Module) (d : Nat) (v : Value)
    (h : awaitOperand (m.init []) = some (.settlesAfter d (.fulfilled v))) :
    ∀ k, worldAt m (d + 1 + k) = afterWorld (m.wasm_main []) v k := by
  intro k
  induction k with
  | zero => rw [Nat.add_zero, worldAt_resume m d _ h, resumed_fulfilled]
  | succ k ih => rw [← Nat.add_assoc, worldAt, ih, step_afterWorld]

theorem afterWorld_trace (o : CallOutcome) (h : Value) (k : Nat) :
    (afterWorld o h k).trace = fullTrace h := by
  cases o <;> rfl

theorem worldAt_after_trace (m : Module) (d : Nat) (v : Value)
    (h : awaitOperand (m.init []) = some (.settlesAfter d (.fulfilled v))) :
    ∀ t, d < t → (worldAt m t).trace = fullTrace v := by
  intro t ht
  obtain ⟨k, rfl⟩ : ∃ k, t = d + 1 + k := ⟨t - d - 1, by omega⟩
  rw [worldAt_after_fulfilled m d v h k, afterWorld_trace]

theorem worldAt_never (m : Module)
    (h : awaitOperand (m.init []) = some .never) :
    ∀ t, worldAt m t = suspended .never := by
  intro t
  induction t with
  | zero => simpa [worldAt] using load_of_awaitOperand m _ h
  | succ t ih => rw [worldAt, ih, step_suspended_never]

theorem worldAt_throws (m : Module) (e : Value) (h : m.init [] = .throws e) :
    ∀ t, worldAt m t =
      { trace := [.runCalled [], .initCalled []], runPromise := some (.rejected e),
        awaiting := none, hung := false, dropped := none, aboutToNotify := [],
        unhandled := [e] } := by
  intro t
  induction t with
  | zero => simp [worldAt, load, run_enter, h, rejectRun, checkpoint, World.initial]
  | succ t ih => rw [worldAt, ih]; simp [step, stepDropped, checkpoint]

theorem worldAt_diverges (m : Module) (h : m.init [] = .diverges) :
    ∀ t, worldAt m t =
      { trace := [.runCalled [], .initCalled []], runPromise := none,
        awaiting := none, hung := true, dropped := none, aboutToNotify := [],
        unhandled := [] } := by
  intro t
  induction t with
  | zero => simp [worldAt, load, run_enter, h, World.initial]
  | succ t ih => rw [worldAt, ih]; simp [step]

/-- At every time the trace is the two calls made by the script's own turn,
followed by nothing, by a rejection, or by a fulfilment and the entry-point
call. -/
theorem trace_shape (m : Module) (t : Nat) :
    (worldAt m t).trace = [.runCalled [], .initCalled []]
    ∨ (∃ e, (worldAt m t).trace = [.runCalled [], .initCalled [], .initRejected e])
    ∨ (∃ v, (worldAt m t).trace
        = [.runCalled [], .initCalled [], .initResolved v, .wasmMainCalled []]) := by
  have key : ∀ f, awaitOperand (m.init []) = some f →
      (worldAt m t).trace = [.runCalled [], .initCalled []]
      ∨ (∃ e, (worldAt m t).trace = [.runCalled [], .initCalled [], .initRejected e])
      ∨ (∃ v, (worldAt m t).trace
          = [.runCalled [], .initCalled [], .initResolved v, .wasmMainCalled []]) := by
    intro f hf
    cases f with
    | never => left; rw [worldAt_never m hf t]; rfl
    | settlesAfter d s =>
      by_cases ht : t ≤ d
      · left; rw [worldAt_before m d s hf t ht]; rfl
      · cases s with
        | rejected e =>
          right; left
          exact ⟨e, by rw [worldAt_after_rejected m d e hf t (by omega)]; rfl⟩
        | fulfilled v =>
          right; right
          exact ⟨v, worldAt_after_trace m d v hf t (by omega)⟩
  cases hi : m.init [] with
  | throws e => left; rw [worldAt_throws m e hi t]
  | diverges => left; rw [worldAt_diverges m hi t]
  | returnsValue v => exact key _ (by rw [hi]; rfl)
  | returnsPromise f => exact key f (by rw [hi]; rfl)

/-! ## The claims -/

/-- C1: when `init()` resolves (with `h`, after `d` turns), the trace on the
module is `[initCalled [], initResolved h, wasmMainCalled []]` from turn `d + 1`
on, so `wasm_main` is invoked exactly once; up to turn `d`, before the
resolution, the trace is `[initCalled []]`, so no call of `wasm_main` precedes
the resolution. This holds whatever `wasm_main` does. -/
theorem C1_entry_once_after_init (m : Module) (d : Nat) (h : Value)
    (hinit : awaitOperand (m.init []) = some (.settlesAfter d (.fulfilled h))) :
    (∀ t, d < t →
        (worldAt m t).moduleTrace = [.initCalled [], .initResolved h, .wasmMainCalled []]
        ∧ (worldAt m t).wasmMainCalls.length = 1)
    ∧ (∀ t, t ≤ d →
        (worldAt m t).moduleTrace = [.initCalled []] ∧ (worldAt m t).wasmMainCalls = []) := by
  constructor
  · intro t ht
    simp [World.moduleTrace, World.wasmMainCalls, worldAt_after_trace m d h hinit t ht,
      fullTrace, Event.isModuleEvent, Event.isWasmMainCall]
  · intro t ht
    rw [worldAt_before m d _ hinit t ht]
    simp [World.moduleTrace, World.wasmMainCalls, suspended,
      Event.isModuleEvent, Event.isWasmMainCall]

theorem C1_entry_once_after_init_witness :
    awaitOperand (okModule.init []) = some (.settlesAfter 2 (.fulfilled (.ref 1)))
    ∧ (worldAt okModule 3).moduleTrace
        = [.initCalled [], .initResolved (.ref 1), .wasmMainCalled []]
    ∧ (worldAt okModule 2).wasmMainCalls = [] :=
  ⟨rfl,
   ((C1_entry_once_after_init okModule 2 (.ref 1) rfl).1 3 (by decide)).1,
   ((C1_entry_once_after_init okModule 2 (.ref 1) rfl).2 2 (by decide)).2⟩

/-- C2: when `init()` rejects, `wasm_main` is never invoked: at every time the
list of its calls is empty. -/
theorem C2_no_entry_on_rejection (m : Module) (d : Nat) (e : Value)
    (hinit : awaitOperand (m.init []) = some (.settlesAfter d (.rejected e))) :
    ∀ t, (worldAt m t).wasmMainCalls = [] := by
  intro t
  by_cases ht : t ≤ d
  · rw [worldAt_before m d _ hinit t ht]
    simp [World.wasmMainCalls, suspended, Event.isWasmMainCall]
  · rw [worldAt_after_rejected m d e hinit t (by omega)]
    simp [World.wasmMainCalls, rejectedWorld, Event.isWasmMainCall]

theorem C2_no_entry_on_rejection_witness :
    awaitOperand (missingModule.init []) = some (.settlesAfter 1 (.rejected (.str "404")))
    ∧ (worldAt missingModule 4).wasmMainCalls = [] :=
  ⟨rfl, C2_no_entry_on_rejection missingModule 1 (.str "404") rfl 4⟩

/-- C3: when `init()` rejects with `e` after `d` turns, from turn `d + 1` on the
promise of `run()` is rejected with that same `e` and the host has reported
exactly `e` on its unhandled-rejection channel; until then the promise is
pending and nothing is reported. -/
theorem C3_rejection_propagates (m : Module) (d : Nat) (e : Value)
    (hinit : awaitOperand (m.init []) = some (.settlesAfter d (.rejected e))) :
    (∀ t, d < t →
        (worldAt m t).runPromise = some (.rejected e) ∧ (worldAt m t).unhandled = [e])
    ∧ (∀ t, t ≤ d →
        (worldAt m t).runPromise = some .pending ∧ (worldAt m t).unhandled = []) := by
  constructor
  · intro t ht
    rw [worldAt_after_rejected m d e hinit t ht]
    exact ⟨rfl, rfl⟩
  · intro t ht
    rw [worldAt_before m d _ hinit t ht]
    exact ⟨rfl, rfl⟩

theorem C3_rejection_propagates_witness :
    awaitOperand (missingModule.init []) = some (.settlesAfter 1 (.rejected (.str "404")))
    ∧ (worldAt missingModule 2).runPromise = some (.rejected (.str "404"))
    ∧ (worldAt missingModule 2).unhandled = [.str "404"] :=
  ⟨rfl, (C3_rejection_propagates missingModule 1 (.str "404") rfl).1 2 (by decide)⟩

/-- C4 as stated fails, in two ways. With `throwingModule`, `init()` resolves,
`wasm_main()` throws, and after the next turn the promise of `run()` is rejected
and the error is reported, the failure arising after the resolution of `init`.
With `rejectingEntryModule`, `init()` resolves and `wasm_main()` returns a
promise that rejects later: `run()` completes, yet the host reports the
rejection of the promise that line 5 dropped. -/
theorem C4_counterexample :
    (awaitOperand (throwingModule.init []) = some (.settlesAfter 0 (.fulfilled (.ref 1)))
      ∧ (worldAt throwingModule 1).trace
          = [.runCalled [], .initCalled [], .initResolved (.ref 1), .wasmMainCalled []]
      ∧ (worldAt throwingModule 1).runPromise = some (.rejected (.str "boom"))
      ∧ (worldAt throwingModule 1).runPromise ≠ some (.fulfilled .undefined)
      ∧ (worldAt throwingModule 1).unhandled = [.str "boom"])
    ∧ (awaitOperand (rejectingEntryModule.init [])
          = some (.settlesAfter 0 (.fulfilled (.ref 1)))
      ∧ rejectingEntryModule.wasm_main []
          = .returnsPromise (.settlesAfter 1 (.rejected (.str "late")))
      ∧ (worldAt rejectingEntryModule 3).runPromise = some (.fulfilled .undefined)
      ∧ (worldAt rejectingEntryModule 3).unhandled = [.str "late"]) := by
  decide

/-- C4, amended: when `init()` resolves and `wasm_main()` returns (a value or a
promise), the promise of `run()` is fulfilled from turn `d + 1` on and is never
rejected; and if what `wasm_main()` returned is not a promise that rejects,
nothing is ever reported to the host. -/
theorem C4_no_error_when_entry_returns (m : Module) (d : Nat) (h : Value)
    (hinit : awaitOperand (m.init []) = some (.settlesAfter d (.fulfilled h)))
    (hmain : (m.wasm_main []).returnsNormally = true) :
    (∀ t, d < t → (worldAt m t).runPromise = some (.fulfilled .undefined))
    ∧ (∀ t e, (worldAt m t).runPromise ≠ some (.rejected e))
    ∧ ((m.wasm_main []).rejectsLater = false →
        ∀ t, (worldAt m t).unhandled = [] ∧ (worldAt m t).aboutToNotify = []) := by
  have hafter : ∀ t, d < t → (worldAt m t).runPromise = some (.fulfilled .undefined) := by
    intro t ht
    obtain ⟨k, rfl⟩ : ∃ k, t = d + 1 + k := ⟨t - d - 1, by omega⟩
    rw [worldAt_after_fulfilled m d h hinit k]
    cases hw : m.wasm_main [] with
    | returns v => rfl
    | returnsPromise f => rfl
    | throws e => rw [hw] at hmain; simp [CallOutcome.returnsNormally] at hmain
    | diverges => rw [hw] at hmain; simp [CallOutcome.returnsNormally] at hmain
  refine ⟨hafter, fun t e => ?_, fun hrej t => ?_⟩
  · by_cases ht : t ≤ d
    · rw [worldAt_before m d _ hinit t ht]; simp [suspended]
    · rw [hafter t (by omega)]; simp
  · by_cases ht : t ≤ d
    · rw [worldAt_before m d _ hinit t ht]; exact ⟨rfl, rfl⟩
    · obtain ⟨k, rfl⟩ : ∃ k, t = d + 1 + k := ⟨t - d - 1, by omega⟩
      rw [worldAt_after_fulfilled m d h hinit k]
      cases hw : m.wasm_main [] with
      | returns v => exact ⟨rfl, rfl⟩
      | throws e => rw [hw] at hmain; simp [CallOutcome.returnsNormally] at hmain
      | diverges => rw [hw] at hmain; simp [CallOutcome.returnsNormally] at hmain
      | returnsPromise f =>
        rw [hw] at hrej
        cases f with
        | never => exact ⟨rfl, rfl⟩
        | settlesAfter j s =>
          cases s with
          | fulfilled v => exact ⟨rfl, rfl⟩
          | rejected e => simp [CallOutcome.rejectsLater] at hrej

theorem C4_no_error_when_entry_returns_witness :
    awaitOperand (asyncEntryModule.init []) = some (.settlesAfter 2 (.fulfilled (.ref 1)))
    ∧ (asyncEntryModule.wasm_main []).returnsNormally = true
    ∧ (asyncEntryModule.wasm_main []).rejectsLater = false
    ∧ (worldAt asyncEntryModule 3).runPromise = some (.fulfilled .undefined)
    ∧ (worldAt asyncEntryModule 5).unhandled = [] :=
  ⟨rfl, rfl, rfl,
   (C4_no_error_when_entry_returns asyncEntryModule 2 (.ref 1) rfl rfl).1 3 (by decide),
   ((C4_no_error_when_entry_returns asyncEntryModule 2 (.ref 1) rfl rfl).2.2 rfl 5).1⟩

/-- C5: whatever the module does, at every time `run` has been called exactly
once, with no arguments, and `init` has been called exactly once: no second
call follows a rejection or a fulfilment. -/
theorem C5_single_run_single_init (m : Module) (t : Nat) :
    (worldAt m t).runCalls = [.runCalled []] ∧ (worldAt m t).initCalls = [.initCalled []] := by
  rcases trace_shape m t with h | ⟨e, h⟩ | ⟨v, h⟩ <;>
    simp [World.runCalls, World.initCalls, h, Event.isRunCall, Event.isInitCall]

/-- C6: every call of `init` and every call of `wasm_main` in the trace has the
empty argument list; and when `init()` resolves with `h` after `d` turns, the
only call made up to turn `d` is `init()`, while turn `d + 1` records the
resolution and the call `wasm_main()` together (no turn lies between them), the
value `h` not being passed on. -/
theorem C6_no_arguments (m : Module) :
    (∀ t args, (.initCalled args ∈ (worldAt m t).trace → args = [])
        ∧ (.wasmMainCalled args ∈ (worldAt m t).trace → args = []))
    ∧ (∀ d h, awaitOperand (m.init []) = some (.settlesAfter d (.fulfilled h)) →
        (worldAt m d).moduleCalls = [.initCalled []]
        ∧ (worldAt m (d + 1)).trace
            = (worldAt m d).trace ++ [.initResolved h, .wasmMainCalled []]
        ∧ (worldAt m (d + 1)).moduleCalls = [.initCalled [], .wasmMainCalled []]) := by
  constructor
  · intro t args
    rcases trace_shape m t with h | ⟨e, h⟩ | ⟨v, h⟩ <;>
      · rw [h]
        constructor <;> intro hmem <;> simp at hmem <;> simp [hmem]
  · intro d h hinit
    simp [World.moduleCalls, worldAt_after_trace m d h hinit (d + 1) (Nat.lt_succ_self d),
      worldAt_before m d _ hinit d (Nat.le_refl d), fullTrace, suspended,
      Event.isModuleCall]

theorem C6_no_arguments_witness :
    awaitOperand (okModule.init []) = some (.settlesAfter 2 (.fulfilled (.ref 1)))
    ∧ (worldAt okModule 3).moduleCalls = [.initCalled [], .wasmMainCalled []]
    ∧ Event.wasmMainCalled [.ref 1] ∉ (worldAt okModule 3).trace :=
  ⟨rfl, ((C6_no_arguments okModule).2 2 (.ref 1) rfl).2.2,
   fun hmem => absurd (((C6_no_arguments okModule).1 3 [.ref 1]).2 hmem) (by decide)⟩

/-- C7: two modules that behave alike on `init()`, which resolves, and whose
`wasm_main()` returns (any two values, promises included) have the same trace
and the same promise of `run()` at every time, and from turn `d + 1` on that
promise is fulfilled with `undefined` in both; when the two returned values
`v1` and `v2` are not promises the whole page, host reports included, is the
same at every time. -/
theorem C7_entry_value_ignored (m1 m2 : Module) (d : Nat) (h : Value)
    (hinit1 : awaitOperand (m1.init []) = some (.settlesAfter d (.fulfilled h)))
    (hinit2 : awaitOperand (m2.init []) = some (.settlesAfter d (.fulfilled h)))
    (hmain1 : (m1.wasm_main []).returnsNormally = true)
    (hmain2 : (m2.wasm_main []).returnsNormally = true) :
    ∀ t, (worldAt m1 t).trace = (worldAt m2 t).trace
      ∧ (worldAt m1 t).runPromise = (worldAt m2 t).runPromise
      ∧ (d < t → (worldAt m1 t).runPromise = some (.fulfilled .undefined)
          ∧ (worldAt m2 t).runPromise = some (.fulfilled .undefined))
      ∧ (∀ v1 v2, m1.wasm_main [] = .returns v1 → m2.wasm_main [] = .returns v2 →
          worldAt m1 t = worldAt m2 t) := by
  intro t
  by_cases ht : t ≤ d
  · rw [worldAt_before m1 d _ hinit1 t ht, worldAt_before m2 d _ hinit2 t ht]
    exact ⟨rfl, rfl, fun h => absurd h (by omega), fun _ _ _ _ => rfl⟩
  · obtain ⟨k, rfl⟩ : ∃ k, t = d + 1 + k := ⟨t - d - 1, by omega⟩
    rw [worldAt_after_fulfilled m1 d h hinit1 k, worldAt_after_fulfilled m2 d h hinit2 k]
    cases hw1 : m1.wasm_main [] <;> cases hw2 : m2.wasm_main [] <;>
      simp [hw1, hw2, CallOutcome.returnsNormally] at hmain1 hmain2 <;>
      simp [afterWorld]

theorem C7_entry_value_ignored_witness :
    (okModule.wasm_main []).returnsNormally = true
    ∧ (asyncEntryModule.wasm_main []).returnsNormally = true
    ∧ okModule.wasm_main [] = .returns (.num 7)
    ∧ okModuleOther.wasm_main [] = .returns (.str "other")
    ∧ (worldAt okModule 3).trace = (worldAt asyncEntryModule 3).trace
    ∧ (worldAt okModule 3).runPromise = some (.fulfilled .undefined)
    ∧ worldAt okModule 3 = worldAt okModuleOther 3 :=
  ⟨rfl, rfl, rfl, rfl,
   (C7_entry_value_ignored okModule asyncEntryModule 2 (.ref 1) rfl rfl rfl rfl 3).1,
   ((C7_entry_value_ignored okModule asyncEntryModule 2 (.ref 1) rfl rfl rfl rfl 3).2.2.1
      (by decide)).1,
   (C7_entry_value_ignored okModule okModuleOther 2 (.ref 1) rfl rfl rfl rfl 3).2.2.2
      (.num 7) (.str "other") rfl rfl⟩

/-- C8: at every time, if `init` has been called and no settlement of its
promise has been seen, `wasm_main` has not been called; a promise that settles
after `d` turns leaves `wasm_main` uncalled and `run()` pending up to turn `d`;
and if the promise of `init()` never settles, then at every time `wasm_main`
has not been called and the promise of `run()` is pending. -/
theorem C8_no_entry_while_pending (m : Module) :
    (∀ t, (worldAt m t).initCalls ≠ [] →
        (worldAt m t).trace.filter Event.isInitSettled = [] →
        (worldAt m t).wasmMainCalls = [])
    ∧ (∀ d s, awaitOperand (m.init []) = some (.settlesAfter d s) →
        ∀ t, t ≤ d → (worldAt m t).wasmMainCalls = []
          ∧ (worldAt m t).runPromise = some .pending)
    ∧ (awaitOperand (m.init []) = some .never →
        ∀ t, (worldAt m t).wasmMainCalls = []
          ∧ (worldAt m t).runPromise = some .pending
          ∧ (worldAt m t).unhandled = []) := by
  refine ⟨fun t _ hpend => ?_, fun d s hinit t ht => ?_, fun hinit t => ?_⟩
  · rcases trace_shape m t with h | ⟨e, h⟩ | ⟨v, h⟩
    · simp [World.wasmMainCalls, h, Event.isWasmMainCall]
    · simp [World.wasmMainCalls, h, Event.isWasmMainCall]
    · rw [h] at hpend
      simp [Event.isInitSettled] at hpend
  · rw [worldAt_before m d s hinit t ht]
    simp [World.wasmMainCalls, suspended, Event.isWasmMainCall]
  · rw [worldAt_never m hinit t]
    simp [World.wasmMainCalls, suspended, Event.isWasmMainCall]

theorem C8_no_entry_while_pending_witness :
    awaitOperand (stalledModule.init []) = some .never
    ∧ (worldAt stalledModule 50).wasmMainCalls = []
    ∧ (worldAt stalledModule 50).runPromise = some .pending
    ∧ (worldAt okModule 2).wasmMainCalls = [] :=
  ⟨rfl, ((C8_no_entry_while_pending stalledModule).2.2 rfl 50).1,
   ((C8_no_entry_while_pending stalledModule).2.2 rfl 50).2.1,
   (C8_no_entry_while_pending okModule).1 2 (by decide) (by decide)⟩

/-- C9: when `init()` resolves after `d` turns and `wasm_main()` throws `e`,
from turn `d + 1` on the promise of `run()` is rejected with that same `e`,
`e` is what the host reports, and `init` and `wasm_main` have each been called
exactly once. -/
theorem C9_entry_throw_propagates (m : Module) (d : Nat) (h e : Value)
    (hinit : awaitOperand (m.init []) = some (.settlesAfter d (.fulfilled h)))
    (hmain : m.wasm_main [] = .throws e) :
    ∀ t, d < t →
      (worldAt m t).runPromise = some (.rejected e)
      ∧ (worldAt m t).unhandled = [e]
      ∧ (worldAt m t).initCalls = [.initCalled []]
      ∧ (worldAt m t).wasmMainCalls = [.wasmMainCalled []] := by
  intro t ht
  obtain ⟨k, rfl⟩ : ∃ k, t = d + 1 + k := ⟨t - d - 1, by omega⟩
  rw [worldAt_after_fulfilled m d h hinit k, hmain]
  simp [afterWorld, fullTrace, World.initCalls, World.wasmMainCalls, Event.isInitCall,
    Event.isWasmMainCall]

theorem C9_entry_throw_propagates_witness :
    awaitOperand (throwingModule.init []) = some (.settlesAfter 0 (.fulfilled (.ref 1)))
    ∧ throwingModule.wasm_main [] = .throws (.str "boom")
    ∧ (worldAt throwingModule 6).runPromise = some (.rejected (.str "boom"))
    ∧ (worldAt throwingModule 6).unhandled = [.str "boom"]
    ∧ (worldAt throwingModule 6).initCalls = [.initCalled []]
    ∧ (worldAt throwingModule 6).wasmMainCalls = [.wasmMainCalled []] :=
  ⟨rfl, rfl,
   C9_entry_throw_propagates throwingModule 0 (.ref 1) (.str "boom") rfl rfl 6 (by decide)⟩

/-- C10: two modules whose `init()` resolves, with `h1` after `d1` turns and
with `h2` after `d2` turns, and whose `wasm_main()` behaves alike, make the same
calls (`init()`, then `wasm_main()`, both without arguments) and give the same
promise of `run()` once resumed, at whatever times the two runs are looked at;
the host reports agree too, at any two such times unless `wasm_main()` returned
a promise that rejects, and in every case at equal numbers of turns after the
resumption; with equal delays the calls, the promise and the reports agree at
every time. -/
theorem C10_handle_discarded (m1 m2 : Module) (d1 d2 : Nat) (h1 h2 : Value)
    (hinit1 : awaitOperand (m1.init []) = some (.settlesAfter d1 (.fulfilled h1)))
    (hinit2 : awaitOperand (m2.init []) = some (.settlesAfter d2 (.fulfilled h2)))
    (hmain : m1.wasm_main [] = m2.wasm_main []) :
    (∀ t1 t2, d1 < t1 → d2 < t2 →
        (worldAt m1 t1).moduleCalls = [.initCalled [], .wasmMainCalled []]
        ∧ (worldAt m2 t2).moduleCalls = [.initCalled [], .wasmMainCalled []]
        ∧ (worldAt m1 t1).runPromise = (worldAt m2 t2).runPromise
        ∧ ((m1.wasm_main []).rejectsLater = false →
            (worldAt m1 t1).unhandled = (worldAt m2 t2).unhandled))
    ∧ (∀ k, (worldAt m1 (d1 + 1 + k)).unhandled = (worldAt m2 (d2 + 1 + k)).unhandled)
    ∧ (d1 = d2 → ∀ t,
        (worldAt m1 t).moduleCalls = (worldAt m2 t).moduleCalls
        ∧ (worldAt m1 t).runPromise = (worldAt m2 t).runPromise
        ∧ (worldAt m1 t).unhandled = (worldAt m2 t).unhandled) := by
  have hcalls : ∀ (o : CallOutcome) (h : Value) (k : Nat),
      (afterWorld o h k).moduleCalls = [.initCalled [], .wasmMainCalled []] := by
    intro o h k
    simp [World.moduleCalls, afterWorld_trace, fullTrace, Event.isModuleCall]
  have hprom : ∀ (o : CallOutcome) (k1 k2 : Nat),
      (afterWorld o h1 k1).runPromise = (afterWorld o h2 k2).runPromise := by
    intro o k1 k2
    cases o <;> rfl
  have hrep : ∀ (o : CallOutcome) (k : Nat),
      (afterWorld o h1 k).unhandled = (afterWorld o h2 k).unhandled := by
    intro o k
    cases o <;> rfl
  refine ⟨fun t1 t2 ht1 ht2 => ?_, fun k => ?_, fun hd t => ?_⟩
  · obtain ⟨k1, rfl⟩ : ∃ k, t1 = d1 + 1 + k := ⟨t1 - d1 - 1, by omega⟩
    obtain ⟨k2, rfl⟩ : ∃ k, t2 = d2 + 1 + k := ⟨t2 - d2 - 1, by omega⟩
    rw [worldAt_after_fulfilled m1 d1 h1 hinit1 k1, worldAt_after_fulfilled m2 d2 h2 hinit2 k2,
      hmain]
    refine ⟨hcalls _ _ _, hcalls _ _ _, hprom _ _ _, fun hrej => ?_⟩
    cases hw : m2.wasm_main [] with
    | returns v => rfl
    | throws e => rfl
    | diverges => rfl
    | returnsPromise f =>
      rw [hw] at hrej
      cases f with
      | never => rfl
      | settlesAfter j s =>
        cases s with
        | fulfilled v => rfl
        | rejected e => simp [CallOutcome.rejectsLater] at hrej
  · rw [worldAt_after_fulfilled m1 d1 h1 hinit1 k, worldAt_after_fulfilled m2 d2 h2 hinit2 k,
      hmain]
    exact hrep _ k
  · subst hd
    by_cases ht : t ≤ d1
    · rw [worldAt_before m1 d1 _ hinit1 t ht, worldAt_before m2 d1 _ hinit2 t ht]
      exact ⟨rfl, rfl, rfl⟩
    · obtain ⟨k, rfl⟩ : ∃ k, t = d1 + 1 + k := ⟨t - d1 - 1, by omega⟩
      rw [worldAt_after_fulfilled m1 d1 h1 hinit1 k,
        worldAt_after_fulfilled m2 d1 h2 hinit2 k, hmain]
      exact ⟨(hcalls _ _ _).trans (hcalls _ _ _).symm, hprom _ _ _, hrep _ _⟩

theorem C10_handle_discarded_witness :
    awaitOperand (okModule.init []) = some (.settlesAfter 2 (.fulfilled (.ref 1)))
    ∧ awaitOperand (okModuleOtherHandle.init [])
        = some (.settlesAfter 2 (.fulfilled (.str "handle")))
    ∧ (worldAt okModule 3).moduleCalls = (worldAt okModuleOtherHandle 3).moduleCalls
    ∧ (worldAt okModule 3).runPromise = (worldAt okModuleOtherHandle 3).runPromise
    ∧ (worldAt okModule 3).unhandled = (worldAt okModuleOtherHandle 3).unhandled :=
  ⟨rfl, rfl,
   (C10_handle_discarded okModule okModuleOtherHandle 2 2 (.ref 1) (.str "handle")
      rfl rfl rfl).2.2 rfl 3⟩

end Buzzer
